import Mathlib

/-!
Verification development for the KatiaMartinApp scheduling core.

The definitions below are a shallow embedding of the appointment / invoice
logic of the repository:
  * `src/src/hooks/useClients.ts` (appointments API: `getAppointments`,
    `addAppointment`, `updateAppointment`, `deleteAppointment`),
  * `src/src/lib/api/invoicesApi.ts` (`addInvoice`, `updateInvoice`),
  * the appointment modal (`validateForm`, `getWorkerAvailability`).

Timestamps are modelled as natural numbers: the database compares
`timestamptz` values, which is an order embedding into `Nat` for the
purposes of the interval comparisons performed by the code.  Optional
fields of the TypeScript records are modelled with `Option`; the store
is a list of records.  Fallible operations return `Except`, modelling
the value thrown before the surrounding `try/catch` converts it into a
toast plus a `null`/`false` return (the caught observables are modelled
separately where a claim is about them).
-/

namespace KatiaMartin

/-- Appointment status enumeration from `useClients.ts` (`'scheduled' |
'in_progress' | 'completed' | 'cancelled'`). -/
inductive AppStatus
  | scheduled
  | in_progress
  | completed
  | cancelled
deriving DecidableEq

/-- A stored appointment row (table `appointments`).  Fields irrelevant to
the claims (`created_at`, `updated_at`) are omitted; `notes` is kept as the
string the form always submits. -/
structure Appointment where
  id : String
  client_id : String
  worker_id : String
  service_id : String
  start_time : Nat
  end_time : Nat
  status : AppStatus
  notes : String
  location : String
deriving DecidableEq

/-- The `Appointment` payload passed to `addAppointment` in
`useClients.ts`: `id` is generated by the store, `status` is optional
(the column defaults to `'scheduled'`). -/
structure AppointmentInput where
  client_id : String
  worker_id : String
  service_id : String
  start_time : Nat
  end_time : Nat
  status : Option AppStatus
  notes : String
  location : String
deriving DecidableEq

/-- A `Partial<Appointment>` patch as passed to `updateAppointment`:
every field may be absent.  (The `id` field is never patched by the
application code.) -/
structure AppointmentPatch where
  client_id : Option String := none
  worker_id : Option String := none
  service_id : Option String := none
  start_time : Option Nat := none
  end_time : Option Nat := none
  status : Option AppStatus := none
  notes : Option String := none
  location : Option String := none
deriving DecidableEq

/-- Errors thrown inside the appointment operations before the catch-all
handler: the scheduling-conflict `Error`, the `.single()` not-found error
and the invoice-dependents `Error` of `deleteAppointment`. -/
inductive SchedError
  | schedulingConflict
  | notFound
  | hasDependents
deriving DecidableEq

/-- The `.or(...)` filter of the conflict query in `addAppointment`
(`useClients.ts` lines 174-178) and `updateAppointment` (lines 228-232),
evaluated on an existing row `[s1, e1)` against the candidate interval
`[s2, e2)`:
`and(start_time.lte.e2, end_time.gt.s2)` or
`and(start_time.lt.e2, end_time.gte.s2)` or
`and(start_time.gte.s2, end_time.lte.e2)`. -/
def conflictQ (s1 e1 s2 e2 : Nat) : Bool :=
  (decide (s1 ≤ e2) && decide (e1 > s2)) ||
  (decide (s1 < e2) && decide (e1 ≥ s2)) ||
  (decide (s1 ≥ s2) && decide (e1 ≤ e2))

/-- Row filter of the conflict queries: same worker, not the excluded id
(`.neq('id', id)`, only present in `updateAppointment`), not cancelled
(`.neq('status', 'cancelled')`), and matching the `.or` interval filter. -/
def isConflicting (w : String) (s e : Nat) (excl : Option String)
    (b : Appointment) : Bool :=
  b.worker_id == w &&
  (match excl with
   | some i => b.id != i
   | none => true) &&
  b.status != AppStatus.cancelled &&
  conflictQ b.start_time b.end_time s e

/-- The row inserted by `addAppointment`: the payload with the
store-generated id and the `status` column default `'scheduled'`. -/
def insertedRow (newId : String) (a : AppointmentInput) : Appointment :=
  { id := newId
    client_id := a.client_id
    worker_id := a.worker_id
    service_id := a.service_id
    start_time := a.start_time
    end_time := a.end_time
    status := a.status.getD AppStatus.scheduled
    notes := a.notes
    location := a.location }

/-- `addAppointment` (`useClients.ts` lines 166-200), up to the catch-all:
query the worker's non-cancelled appointments through the `.or` interval
filter; throw the conflict `Error` when any row matches; otherwise insert. -/
def addAppointment (newId : String) (a : AppointmentInput)
    (st : List Appointment) : Except SchedError (List Appointment) :=
  let existing := st.filter (isConflicting a.worker_id a.start_time a.end_time none)
  if existing.isEmpty then
    Except.ok (st ++ [insertedRow newId a])
  else
    Except.error SchedError.schedulingConflict

/-- Field-wise application of a `Partial<Appointment>` patch, as the
store's `update` writes exactly the supplied columns. -/
def applyPatch (p : AppointmentPatch) (a : Appointment) : Appointment :=
  { a with
    client_id := p.client_id.getD a.client_id
    worker_id := p.worker_id.getD a.worker_id
    service_id := p.service_id.getD a.service_id
    start_time := p.start_time.getD a.start_time
    end_time := p.end_time.getD a.end_time
    status := p.status.getD a.status
    notes := p.notes.getD a.notes
    location := p.location.getD a.location }

/-- The guard of `updateAppointment` (`useClients.ts` lines 205-206):
`(updates.start_time || updates.end_time || updates.worker_id) &&
(updates.worker_id || updates.start_time || updates.end_time)` — both
conjuncts are the same disjunction, so the guard holds exactly when the
patch carries one of the three scheduling fields. -/
def touchesSchedule (p : AppointmentPatch) : Bool :=
  p.start_time.isSome || p.end_time.isSome || p.worker_id.isSome

/-- The final `update ... .eq('id', id).select().single()` step: writes the
patch into every row with the id and errors (`.single()`) when no row
matches. -/
def writeBack (id : String) (p : AppointmentPatch) (st : List Appointment) :
    Except SchedError (List Appointment) :=
  if st.any (fun a => a.id == id) then
    Except.ok (st.map (fun a => if a.id == id then applyPatch p a else a))
  else
    Except.error SchedError.notFound

/-- `updateAppointment` (`useClients.ts` lines 202-256), up to the
catch-all: when the patch touches `start_time`, `end_time` or `worker_id`,
load the current row, compute the effective worker/start/end (patch field
when present, current value otherwise), run the conflict query excluding
the row itself, and throw on a match; otherwise write the patch directly. -/
def updateAppointment (id : String) (p : AppointmentPatch)
    (st : List Appointment) : Except SchedError (List Appointment) :=
  if touchesSchedule p then
    match st.find? (fun a => a.id == id) with
    | none => Except.error SchedError.notFound
    | some cur =>
      let w := p.worker_id.getD cur.worker_id
      let s := p.start_time.getD cur.start_time
      let e := p.end_time.getD cur.end_time
      let existing := st.filter (isConflicting w s e (some id))
      if existing.isEmpty then
        writeBack id p st
      else
        Except.error SchedError.schedulingConflict
  else
    writeBack id p st

/-- Invoice status enumeration from `invoicesApi.ts`. -/
inductive InvStatus
  | draft
  | pending
  | paid
  | cancelled
deriving DecidableEq

/-- A stored invoice row (table `invoices`).  `paid_date` is nullable. -/
structure Invoice where
  id : String
  client_id : String
  appointment_id : String
  amount : Int
  status : InvStatus
  due_date : String
  paid_date : Option String
  notes : String
deriving DecidableEq

/-- The `Invoice` payload passed to `addInvoice`: `id` is store-generated,
`status` is optional (the column defaults to `'draft'`), `paid_date` and
`notes` are optional. -/
structure InvoiceInput where
  client_id : String
  appointment_id : String
  amount : Int
  status : Option InvStatus
  due_date : String
  paid_date : Option String
  notes : Option String
deriving DecidableEq

/-- A `Partial<Invoice>` patch as passed to `updateInvoice`. -/
structure InvoicePatch where
  client_id : Option String := none
  appointment_id : Option String := none
  amount : Option Int := none
  status : Option InvStatus := none
  due_date : Option String := none
  paid_date : Option String := none
  notes : Option String := none
deriving DecidableEq

/-- Errors thrown inside the invoice operations before the catch-all. -/
inductive InvError
  | duplicateInvoice
  | notFound
deriving DecidableEq

/-- The row inserted by `addInvoice`: the payload with the store-generated
id and the `status` column default `'draft'`. -/
def insertedInvoice (newId : String) (inv : InvoiceInput) : Invoice :=
  { id := newId
    client_id := inv.client_id
    appointment_id := inv.appointment_id
    amount := inv.amount
    status := inv.status.getD InvStatus.draft
    due_date := inv.due_date
    paid_date := inv.paid_date
    notes := inv.notes.getD "" }

/-- `addInvoice` (`invoicesApi.ts` lines 109-137), up to the catch-all:
query invoices with the same `appointment_id`; throw the duplicate `Error`
when any exists; otherwise insert. -/
def addInvoice (newId : String) (inv : InvoiceInput) (st : List Invoice) :
    Except InvError (List Invoice) :=
  let existing := st.filter (fun i => i.appointment_id == inv.appointment_id)
  if existing.isEmpty then
    Except.ok (st ++ [insertedInvoice newId inv])
  else
    Except.error InvError.duplicateInvoice

/-- The in-place mutation of the caller's patch object in `updateInvoice`
(`invoicesApi.ts` lines 141-144): when `updates.status === 'paid'` and
`updates.paid_date` is falsy (absent or the empty string), assign today's
date into `updates.paid_date`.  The result is the value of the caller's
object after the call. -/
def stampPaidDate (p : InvoicePatch) (today : String) : InvoicePatch :=
  if p.status == some InvStatus.paid && (p.paid_date.getD "").isEmpty then
    { p with paid_date := some today }
  else
    p

/-- Field-wise application of a `Partial<Invoice>` patch. -/
def applyInvoicePatch (p : InvoicePatch) (i : Invoice) : Invoice :=
  { i with
    client_id := p.client_id.getD i.client_id
    appointment_id := p.appointment_id.getD i.appointment_id
    amount := p.amount.getD i.amount
    status := p.status.getD i.status
    due_date := p.due_date.getD i.due_date
    paid_date := match p.paid_date with
      | some d => some d
      | none => i.paid_date
    notes := p.notes.getD i.notes }

/-- `updateInvoice` (`invoicesApi.ts` lines 139-161), up to the catch-all:
mutate the patch via the paid-date stamp, then write it into the row with
the id (`.single()` errors when no row matches).  The returned pair is
(new store, the caller's patch object after the call). -/
def updateInvoice (id : String) (p : InvoicePatch) (today : String)
    (st : List Invoice) : Except InvError (List Invoice × InvoicePatch) :=
  let p' := stampPaidDate p today
  if st.any (fun i => i.id == id) then
    Except.ok
      (st.map (fun i => if i.id == id then applyInvoicePatch p' i else i), p')
  else
    Except.error InvError.notFound

/-- The database state touched by `deleteAppointment`: the appointments
and invoices tables. -/
structure DB where
  appointments : List Appointment
  invoices : List Invoice
deriving DecidableEq

/-- `deleteAppointment` (`useClients.ts` lines 258-285), up to the
catch-all: query invoices with `appointment_id = id`; throw the dependents
`Error` when any exists; otherwise delete the rows with the id. -/
def deleteAppointment (id : String) (db : DB) : Except SchedError DB :=
  let invs := db.invoices.filter (fun i => i.appointment_id == id)
  if invs.isEmpty then
    Except.ok { db with appointments := db.appointments.filter (fun a => a.id != id) }
  else
    Except.error SchedError.hasDependents

/-- The `getAppointments` result after its catch-all (`useClients.ts`
lines 133-141): the query result on success, `{ data: [], count: 0 }` on
a store error. -/
def getAppointmentsCaught (r : Except String (List Appointment × Nat)) :
    List Appointment × Nat :=
  match r with
  | Except.ok v => v
  | Except.error _ => ([], 0)

/-- The `addAppointment` observable after its catch-all (`useClients.ts`
lines 166-200): the outcome of the conflict query and of the insert are
passed as parameters; a store failure in either, and equally a detected
conflict, all end in the catch block and return `null` (modelled `none`). -/
def addAppointmentCaught (check : Except String (List Appointment))
    (ins : Except String Appointment) : Option Appointment :=
  match check with
  | Except.error _ => none
  | Except.ok existing =>
    if existing.isEmpty then
      match ins with
      | Except.ok d => some d
      | Except.error _ => none
    else
      none

/-- The day-name array of `getWorkerAvailability` (modal component,
line 237). -/
def dayNamesList : List String :=
  ["Sunday", "Monday", "Tuesday", "Wednesday", "Thursday", "Friday", "Saturday"]

/-- Array indexing `[...][startDate.getDay()]` with `getDay()` in `0..6`. -/
def dayName (d : Fin 7) : String :=
  dayNamesList.getD d.val ""

/-- `getWorkerAvailability` (modal component, lines 227-248), with the
worker/form resolution abstracted to its inputs: the worker's availability
map (`none` when the worker has no availability object), the start time's
day of week and local hour.  Hours `[8,12)` map to `'morning'`, `[13,17)`
to `'afternoon'`, anything else yields `null`; the result is the test
`availability[day]?.[slot] === 'available'`. -/
def getWorkerAvailability
    (avail : Option (String → Option (String → Option String)))
    (d : Fin 7) (hour : Nat) : Option Bool :=
  match avail with
  | none => none
  | some av =>
    let slot : Option String :=
      if 8 ≤ hour ∧ hour < 12 then some "morning"
      else if 13 ≤ hour ∧ hour < 17 then some "afternoon"
      else none
    match slot with
    | none => none
    | some s =>
      let availability := (av (dayName d)).bind (fun m => m s)
      some (availability == some "available")

/-- The form state validated by `validateForm` (modal component): the
datetime-local fields are empty strings until filled, modelled `none`. -/
structure FormData where
  client_id : String
  worker_id : String
  service_id : String
  start_time : Option Nat
  end_time : Option Nat
  location : String
deriving DecidableEq

/-- The error keys accumulated by `validateForm` (modal component, lines
112-152): required-field checks plus the `endTime <= startTime` check. -/
def validateFormErrors (f : FormData) : List String :=
  (if f.client_id.isEmpty then ["client_id"] else []) ++
  (if f.worker_id.isEmpty then ["worker_id"] else []) ++
  (if f.service_id.isEmpty then ["service_id"] else []) ++
  (if f.start_time.isNone then ["start_time"] else []) ++
  (if f.end_time.isNone then ["end_time"] else []) ++
  (if f.location.isEmpty then ["location"] else []) ++
  (match f.start_time, f.end_time with
   | some s, some e => if e ≤ s then ["end_time"] else []
   | _, _ => [])

/-- `validateForm` returns true exactly when no error was recorded. -/
def validateForm (f : FormData) : Bool :=
  (validateFormErrors f).isEmpty

/-! ## Non-overlap invariant machinery (claim C1) -/

/-- Strict overlap of the half-open intervals of two appointments, the
spec's glossary notion. -/
def strictOverlap (a b : Appointment) : Prop :=
  a.start_time < b.end_time ∧ b.start_time < a.end_time

/-- A pair of appointments is harmless when, if they share a worker and
neither is cancelled, their intervals do not strictly overlap. -/
def okPair (a b : Appointment) : Prop :=
  a.worker_id = b.worker_id → a.status ≠ AppStatus.cancelled →
    b.status ≠ AppStatus.cancelled → ¬ strictOverlap a b

/-- Pair invariant: distinct store ids plus the non-overlap condition. -/
def invPair (a b : Appointment) : Prop :=
  a.id ≠ b.id ∧ okPair a b

/-- Store invariant: every pair of rows satisfies `invPair`. -/
def Inv (st : List Appointment) : Prop :=
  st.Pairwise invPair

/-- An `updateAppointment` call that re-activates a cancelled appointment
without touching the scheduling fields: the patch carries none of
`start_time`, `end_time`, `worker_id`, yet switches the status of a
currently cancelled row to a non-cancelled one.  Such a call bypasses the
conflict re-check. -/
def Reactivates (st : List Appointment) (id : String)
    (p : AppointmentPatch) : Prop :=
  touchesSchedule p = false ∧
    ∃ cur ∈ st, cur.id = id ∧ cur.status = AppStatus.cancelled ∧
      ∃ s, p.status = some s ∧ s ≠ AppStatus.cancelled

/-- Store states reachable from the empty store by individually
successful `addAppointment` calls (with store-fresh ids) and successful
`updateAppointment` calls that do not silently re-activate a cancelled
appointment. -/
inductive Reach : List Appointment → Prop
  | nil : Reach []
  | add {st st' : List Appointment} {newId : String} {a : AppointmentInput} :
      Reach st → (∀ b ∈ st, b.id ≠ newId) →
      addAppointment newId a st = Except.ok st' → Reach st'
  | update {st st' : List Appointment} {id : String} {p : AppointmentPatch} :
      Reach st → ¬ Reactivates st id p →
      updateAppointment id p st = Except.ok st' → Reach st'

/-! ## Concrete demo data used by witnesses and counterexamples -/

/-- A demo appointment payload: worker "w", interval [600, 660). -/
def c1In : AppointmentInput :=
  { client_id := "c", worker_id := "w", service_id := "v",
    start_time := 600, end_time := 660, status := none,
    notes := "", location := "home" }

/-- A status-only patch cancelling an appointment. -/
def c1PCancel : AppointmentPatch := { status := some AppStatus.cancelled }

/-- A status-only patch re-activating an appointment. -/
def c1PResched : AppointmentPatch := { status := some AppStatus.scheduled }

/-- The four-call sequence refuting the unrestricted claim: create A at
[600, 660) for "w"; cancel A; create B at the same slot (succeeds, A is
cancelled); re-activate A through a status-only patch (no conflict
re-check runs). -/
def c1Run : Except SchedError (List Appointment) :=
  (addAppointment "A" c1In []).bind (fun st =>
    (updateAppointment "A" c1PCancel st).bind (fun st =>
      (addAppointment "B" c1In st).bind (fun st =>
        updateAppointment "A" c1PResched st)))

/-- Demo payload for C2: worker "w", [10:00, 11:00) as minutes 600-660. -/
def c2In1 : AppointmentInput :=
  { client_id := "c", worker_id := "w", service_id := "v",
    start_time := 600, end_time := 660, status := none,
    notes := "", location := "home" }

/-- Demo payload for C2: the overlapping candidate [10:30, 11:30). -/
def c2Mid : AppointmentInput :=
  { c2In1 with start_time := 630, end_time := 690 }

/-- Demo payload for C2: the back-to-back candidate [11:00, 12:00). -/
def c2Back : AppointmentInput :=
  { c2In1 with start_time := 660, end_time := 720 }

/-- Two disjoint demo rows of worker "w" for the C3 witness. -/
def c3A : Appointment :=
  { id := "A", client_id := "c", worker_id := "w", service_id := "v",
    start_time := 600, end_time := 660, status := AppStatus.scheduled,
    notes := "", location := "home" }

/-- Second demo row, interval [700, 760). -/
def c3B : Appointment :=
  { c3A with id := "B", start_time := 700, end_time := 760 }

/-- A demo row for the C4 evaluation. -/
def c4Row : Appointment :=
  { id := "A", client_id := "c", worker_id := "w", service_id := "v",
    start_time := 600, end_time := 660, status := AppStatus.scheduled,
    notes := "", location := "home" }

/-- A payload whose end time precedes its start time. -/
def c5Bad : AppointmentInput :=
  { client_id := "c", worker_id := "w", service_id := "v",
    start_time := 600, end_time := 540, status := none,
    notes := "", location := "home" }

/-- The form state exercised in the C5 witness. -/
def c5Form : FormData :=
  { client_id := "c", worker_id := "w", service_id := "v",
    start_time := some 600, end_time := some 540, location := "home" }

/-- The invoice referencing appointment "A" in the C6 witness. -/
def c6Inv : Invoice :=
  { id := "I", client_id := "c", appointment_id := "A", amount := 50,
    status := InvStatus.draft, due_date := "2026-01-01",
    paid_date := none, notes := "" }

/-- The appointment row deleted in the C6 witness. -/
def c6App : Appointment :=
  { id := "A", client_id := "c", worker_id := "w", service_id := "v",
    start_time := 600, end_time := 660, status := AppStatus.completed,
    notes := "", location := "home" }

/-- The invoice payload of the C7 witness. -/
def c7In : InvoiceInput :=
  { client_id := "c", appointment_id := "A", amount := 50, status := none,
    due_date := "2026-01-01", paid_date := none, notes := none }

/-- The stored invoice of the C8 witness: status pending, no paid date. -/
def c8Cur : Invoice :=
  { id := "I", client_id := "c", appointment_id := "A", amount := 50,
    status := InvStatus.pending, due_date := "2026-01-01",
    paid_date := none, notes := "" }

/-- The availability map of the C9 witness: Monday morning explicitly
unavailable, everything else absent. -/
def c9Avail : String → Option (String → Option String) :=
  fun day =>
    if day = "Monday" then
      some (fun slot => if slot = "morning" then some "unavailable" else none)
    else
      none

/-- The patch of the C10 witness. -/
def c10P : InvoicePatch := { status := some InvStatus.paid }

lemma conflictQ_of_overlap {s1 e1 s2 e2 : Nat} (h1 : s1 < e2) (h2 : s2 < e1) :
    conflictQ s1 e1 s2 e2 = true := by
  simp only [conflictQ, Bool.or_eq_true, Bool.and_eq_true, decide_eq_true_eq]
  omega

lemma okPair_symm {a b : Appointment} (h : okPair a b) : okPair b a := by
  intro hw hsb hsa hov
  exact h hw.symm hsa hsb ⟨hov.2, hov.1⟩

lemma invPair_symmetric : Symmetric invPair := by
  intro a b h
  exact ⟨fun he => h.1 he.symm, okPair_symm h.2⟩

/-- In a store satisfying the invariant, rows are determined by their id. -/
lemma mem_unique_id {st : List Appointment} (hInv : Inv st)
    {a c : Appointment} (ha : a ∈ st) (hc : c ∈ st) (hid : a.id = c.id) :
    a = c := by
  by_contra hne
  exact (hInv.forall invPair_symmetric ha hc hne).1 hid

lemma isConflicting_eq_true_iff (w : String) (s e : Nat)
    (excl : Option String) (b : Appointment) :
    isConflicting w s e excl b = true ↔
      b.worker_id = w ∧ (∀ i, excl = some i → b.id ≠ i) ∧
        b.status ≠ AppStatus.cancelled ∧
        conflictQ b.start_time b.end_time s e = true := by
  cases excl <;>
    simp [isConflicting, and_assoc]

lemma addAppointment_ok_iff {newId : String} {a : AppointmentInput}
    {st st' : List Appointment} :
    addAppointment newId a st = Except.ok st' ↔
      (∀ b ∈ st,
        isConflicting a.worker_id a.start_time a.end_time none b = false) ∧
      st' = st ++ [insertedRow newId a] := by
  simp only [addAppointment]
  split
  · rename_i hE
    rw [List.isEmpty_iff, List.filter_eq_nil_iff] at hE
    simp only [Except.ok.injEq]
    constructor
    · intro h
      exact ⟨fun b hb => Bool.eq_false_iff.mpr (hE b hb), h.symm⟩
    · intro h
      exact h.2.symm
  · rename_i hE
    rw [Bool.not_eq_true, Bool.eq_false_iff] at hE
    constructor
    · intro h
      cases h
    · intro h
      exact absurd (by rw [List.isEmpty_iff, List.filter_eq_nil_iff]
                       intro b hb
                       simp [h.1 b hb]) hE

/-- The patched row keeps its id. -/
lemma applyPatch_id (p : AppointmentPatch) (a : Appointment) :
    (applyPatch p a).id = a.id := rfl

lemma writeBack_ok_iff {id : String} {p : AppointmentPatch}
    {st st' : List Appointment} :
    writeBack id p st = Except.ok st' ↔
      (∃ a ∈ st, a.id = id) ∧
      st' = st.map (fun a => if a.id == id then applyPatch p a else a) := by
  simp only [writeBack]
  split
  · rename_i hA
    rw [List.any_eq_true] at hA
    simp only [Except.ok.injEq]
    constructor
    · intro h
      refine ⟨?_, h.symm⟩
      obtain ⟨x, hx, hxe⟩ := hA
      exact ⟨x, hx, by simpa using hxe⟩
    · intro h
      exact h.2.symm
  · rename_i hA
    rw [Bool.not_eq_true] at hA
    constructor
    · intro h
      cases h
    · intro h
      obtain ⟨x, hx, hxe⟩ := h.1
      rw [Bool.eq_false_iff] at hA
      exact absurd (List.any_eq_true.mpr ⟨x, hx, by simpa using hxe⟩) hA

lemma touchesSchedule_false {p : AppointmentPatch}
    (h : touchesSchedule p = false) :
    p.start_time = none ∧ p.end_time = none ∧ p.worker_id = none := by
  cases hs : p.start_time <;> cases he : p.end_time <;> cases hw : p.worker_id <;>
    simp_all [touchesSchedule]

lemma inv_add {st st' : List Appointment} {newId : String}
    {a : AppointmentInput} (hInv : Inv st) (hfresh : ∀ b ∈ st, b.id ≠ newId)
    (h : addAppointment newId a st = Except.ok st') : Inv st' := by
  obtain ⟨hNoC, rfl⟩ := addAppointment_ok_iff.mp h
  rw [Inv, List.pairwise_append]
  refine ⟨hInv, List.pairwise_singleton _ _, ?_⟩
  intro b hb r hr
  rw [List.mem_singleton] at hr
  subst hr
  refine ⟨hfresh b hb, ?_⟩
  intro hw hsb _ hov
  have hc : conflictQ b.start_time b.end_time a.start_time a.end_time = true :=
    conflictQ_of_overlap hov.1 hov.2
  have htrue : isConflicting a.worker_id a.start_time a.end_time none b = true :=
    (isConflicting_eq_true_iff _ _ _ _ _).mpr
      ⟨hw, fun _ hi => Option.noConfusion hi, hsb, hc⟩
  rw [hNoC b hb] at htrue
  cases htrue

lemma inv_update {st st' : List Appointment} {id : String}
    {p : AppointmentPatch} (hInv : Inv st) (hnr : ¬ Reactivates st id p)
    (h : updateAppointment id p st = Except.ok st') : Inv st' := by
  have hfid : ∀ x : Appointment,
      (if x.id == id then applyPatch p x else x).id = x.id := by
    intro x
    by_cases hx : x.id = id <;> simp [hx, applyPatch_id]
  by_cases ht : touchesSchedule p = true
  · cases hfind : st.find? (fun a => a.id == id) with
    | none =>
      simp only [updateAppointment, ht, if_true, hfind] at h
      exact Except.noConfusion h
    | some cur =>
      simp only [updateAppointment, ht, if_true, hfind] at h
      have hcur_mem : cur ∈ st := List.mem_of_find?_eq_some hfind
      have hcur_id : cur.id = id := by
        have := List.find?_some hfind
        simpa using this
      split at h
      swap
      · exact Except.noConfusion h
      · rename_i hE
        rw [List.isEmpty_iff, List.filter_eq_nil_iff] at hE
        obtain ⟨-, rfl⟩ := writeBack_ok_iff.mp h
        rw [Inv, List.pairwise_map]
        refine List.Pairwise.imp_of_mem ?_ hInv
        intro x y hx hy hxy
        refine ⟨by rw [hfid, hfid]; exact hxy.1, ?_⟩
        intro hw hsx hsy hov
        by_cases hx1 : x.id = id
        · have hxcur : x = cur :=
            mem_unique_id hInv hx hcur_mem (hx1.trans hcur_id.symm)
          have hy1 : ¬ y.id = id := fun hye => hxy.1 (hx1.trans hye.symm)
          simp only [hx1, hy1, beq_self_eq_true, beq_iff_eq, if_true, if_false] at hw hsy hov
          refine hE y hy ((isConflicting_eq_true_iff _ _ _ _ _).mpr
            ⟨?_, fun i hi => by cases hi; exact hy1, hsy, ?_⟩)
          · rw [← hxcur]
            exact hw.symm
          · refine conflictQ_of_overlap ?_ ?_
            · rw [← hxcur]
              exact hov.2
            · rw [← hxcur]
              exact hov.1
        · by_cases hy1 : y.id = id
          · have hycur : y = cur :=
              mem_unique_id hInv hy hcur_mem (hy1.trans hcur_id.symm)
            simp only [hx1, hy1, beq_self_eq_true, beq_iff_eq, if_true, if_false] at hw hsx hov
            refine hE x hx ((isConflicting_eq_true_iff _ _ _ _ _).mpr
              ⟨?_, fun i hi => by cases hi; exact hx1, hsx, ?_⟩)
            · rw [← hycur]
              exact hw
            · refine conflictQ_of_overlap ?_ ?_
              · rw [← hycur]
                exact hov.1
              · rw [← hycur]
                exact hov.2
          · simp only [hx1, hy1, beq_iff_eq, if_false] at hw hsx hsy hov
            exact hxy.2 hw hsx hsy hov
  · rw [Bool.not_eq_true] at ht
    simp only [updateAppointment, ht, Bool.false_eq_true, if_false] at h
    obtain ⟨hns, hne, hnw⟩ := touchesSchedule_false ht
    obtain ⟨-, rfl⟩ := writeBack_ok_iff.mp h
    rw [Inv, List.pairwise_map]
    refine List.Pairwise.imp_of_mem ?_ hInv
    intro x y hx hy hxy
    have hfw : ∀ z : Appointment,
        (if z.id == id then applyPatch p z else z).worker_id = z.worker_id := by
      intro z
      by_cases hz : z.id = id <;> simp [hz, applyPatch, hnw]
    have hfs : ∀ z : Appointment,
        (if z.id == id then applyPatch p z else z).start_time = z.start_time := by
      intro z
      by_cases hz : z.id = id <;> simp [hz, applyPatch, hns]
    have hfe : ∀ z : Appointment,
        (if z.id == id then applyPatch p z else z).end_time = z.end_time := by
      intro z
      by_cases hz : z.id = id <;> simp [hz, applyPatch, hne]
    have hstat : ∀ z : Appointment, z ∈ st → z.id = id →
        (if z.id == id then applyPatch p z else z).status ≠ AppStatus.cancelled →
        z.status ≠ AppStatus.cancelled := by
      intro z hz hzid hzs hzc
      rw [if_pos (beq_iff_eq.mpr hzid)] at hzs
      cases hps : p.status with
      | none => exact hzs (by simp [applyPatch, hps, hzc])
      | some s =>
        by_cases hsc : s = AppStatus.cancelled
        · exact hzs (by simp [applyPatch, hps, hsc])
        · exact hnr ⟨ht, z, hz, hzid, hzc, s, hps, hsc⟩
    refine ⟨by rw [hfid, hfid]; exact hxy.1, ?_⟩
    intro hw hsx hsy hov
    rw [hfw, hfw] at hw
    have hov1 := hov.1
    have hov2 := hov.2
    rw [hfs, hfe] at hov1
    rw [hfs, hfe] at hov2
    have hsx' : x.status ≠ AppStatus.cancelled := by
      by_cases hx1 : x.id = id
      · exact hstat x hx hx1 hsx
      · simpa [hx1] using hsx
    have hsy' : y.status ≠ AppStatus.cancelled := by
      by_cases hy1 : y.id = id
      · exact hstat y hy hy1 hsy
      · simpa [hy1] using hsy
    exact hxy.2 hw hsx' hsy' ⟨hov1, hov2⟩

/-- Every reachable store satisfies the full invariant. -/
lemma reach_inv {st : List Appointment} (h : Reach st) : Inv st := by
  induction h with
  | nil => exact List.Pairwise.nil
  | add _ hfresh hok ih => exact inv_add ih hfresh hok
  | update _ hnr hok ih => exact inv_update ih hnr hok

/-! ## Claim C1 -/

/-- C1 counterexample: the four calls each succeed, yet the final store
holds two non-cancelled appointments of worker "w" with identical
(hence overlapping) [600, 660) intervals. -/
theorem C1_counterexample :
    c1Run = Except.ok [insertedRow "A" c1In, insertedRow "B" c1In] ∧
      ¬ ([insertedRow "A" c1In, insertedRow "B" c1In]).Pairwise okPair := by
  refine ⟨by rfl, ?_⟩
  intro hP
  have hAB : okPair (insertedRow "A" c1In) (insertedRow "B" c1In) :=
    List.rel_of_pairwise_cons hP (List.mem_singleton.mpr rfl)
  exact hAB rfl (by decide) (by decide) ⟨by decide, by decide⟩

/-- C1 (amended): after any finite sequence of individually successful
`addAppointment` calls (with store-fresh ids) and `updateAppointment`
calls none of which re-activates a cancelled appointment through a patch
that touches none of `start_time`/`end_time`/`worker_id`, the
appointments of each fixed worker that are not cancelled have pairwise
non-overlapping [start_time, end_time) intervals. -/
theorem C1_worker_non_overlap (st : List Appointment) (h : Reach st) :
    st.Pairwise okPair :=
  List.Pairwise.imp (fun hab => hab.2) (reach_inv h)

/-- Witness for C1: a concrete reachable one-element store satisfying the
invariant. -/
theorem C1_worker_non_overlap_witness :
    Reach [insertedRow "A" c1In] ∧
      ([insertedRow "A" c1In]).Pairwise okPair := by
  have hr : Reach [insertedRow "A" c1In] :=
    Reach.add Reach.nil (by intro b hb; cases hb) rfl
  exact ⟨hr, C1_worker_non_overlap _ hr⟩

/-! ## Claim C2 -/

/-- C2 counterexample: with [600, 660) stored for worker "w", the
back-to-back candidate [660, 720) is rejected with a scheduling conflict
even though the claimed predicate `s1 < e2 AND s2 < e1` does not hold at
`s1 = 600, e1 = 660, s2 = 660, e2 = 720`. -/
theorem C2_counterexample :
    addAppointment "A" c2In1 [] = Except.ok [insertedRow "A" c2In1] ∧
      addAppointment "B" c2Back [insertedRow "A" c2In1] =
        Except.error SchedError.schedulingConflict ∧
      conflictQ 600 660 660 720 = true ∧ ¬ (600 < 720 ∧ 660 < 660) :=
  ⟨rfl, rfl, by decide, by decide⟩

/-- C2 (amended): the conflict test is the three-way disjunction of the
`.or` filter, which for valid intervals (`s1 < e1`, `s2 < e2`) flags a
candidate exactly when the closed intervals touch or overlap
(`s1 ≤ e2 AND s2 ≤ e1`).  Consequently, after creating [10:00, 11:00)
for worker W, creating [10:30, 11:30) for W fails with a scheduling
conflict — and so does the back-to-back [11:00, 12:00). -/
theorem C2_conflict_predicate :
    (∀ s1 e1 s2 e2 : Nat, s1 < e1 → s2 < e2 →
      (conflictQ s1 e1 s2 e2 = true ↔ (s1 ≤ e2 ∧ s2 ≤ e1))) ∧
    addAppointment "B" c2Mid [insertedRow "A" c2In1] =
      Except.error SchedError.schedulingConflict ∧
    addAppointment "B" c2Back [insertedRow "A" c2In1] =
      Except.error SchedError.schedulingConflict := by
  refine ⟨?_, rfl, rfl⟩
  intro s1 e1 s2 e2 h1 h2
  simp only [conflictQ, Bool.or_eq_true, Bool.and_eq_true, decide_eq_true_eq]
  omega

/-- Witness for C2: the predicate equivalence evaluated at the concrete
intervals [600, 660) and [630, 690). -/
theorem C2_conflict_predicate_witness :
    600 < 660 ∧ 630 < 690 ∧
      (conflictQ 600 660 630 690 = true ↔ (600 ≤ 690 ∧ 630 ≤ 660)) :=
  ⟨by decide, by decide,
    C2_conflict_predicate.1 600 660 630 690 (by decide) (by decide)⟩

/-! ## Claim C3 -/

/-- C3: the `updateAppointment` contract.  (i) A patch touching
`start_time`/`end_time`/`worker_id` first loads the current record and
fails when it does not exist.  (ii) With the current record loaded, the
effective worker/start/end are the patch fields when present and the
current values otherwise; if some other (non-cancelled, same effective
worker) appointment matches the conflict filter against the effective
interval, the call fails with a scheduling conflict and produces no new
store; if none matches, the patch is written.  (iii) A patch touching
none of the three fields is written without any conflict check.
(iv) Self-exclusion: re-saving the record's own unchanged start/end
succeeds whenever no other appointment conflicts with it. -/
theorem C3_update_contract :
    (∀ (st : List Appointment) (id : String) (p : AppointmentPatch),
      touchesSchedule p = true → st.find? (fun a => a.id == id) = none →
        updateAppointment id p st = Except.error SchedError.notFound) ∧
    (∀ (st : List Appointment) (id : String) (p : AppointmentPatch)
        (cur : Appointment),
      touchesSchedule p = true → st.find? (fun a => a.id == id) = some cur →
        ((∃ b ∈ st, b.id ≠ id ∧
            b.worker_id = p.worker_id.getD cur.worker_id ∧
            b.status ≠ AppStatus.cancelled ∧
            conflictQ b.start_time b.end_time (p.start_time.getD cur.start_time)
              (p.end_time.getD cur.end_time) = true) →
          updateAppointment id p st = Except.error SchedError.schedulingConflict) ∧
        ((∀ b ∈ st, b.id ≠ id → b.worker_id = p.worker_id.getD cur.worker_id →
            b.status ≠ AppStatus.cancelled →
            conflictQ b.start_time b.end_time (p.start_time.getD cur.start_time)
              (p.end_time.getD cur.end_time) = false) →
          updateAppointment id p st =
            Except.ok (st.map (fun a => if a.id == id then applyPatch p a else a)))) ∧
    (∀ (st : List Appointment) (id : String) (p : AppointmentPatch),
      touchesSchedule p = false → (∃ a ∈ st, a.id = id) →
        updateAppointment id p st =
          Except.ok (st.map (fun a => if a.id == id then applyPatch p a else a))) ∧
    (∀ (st : List Appointment) (id : String) (cur : Appointment),
      st.find? (fun a => a.id == id) = some cur →
        (∀ b ∈ st, b.id ≠ id → b.worker_id = cur.worker_id →
            b.status ≠ AppStatus.cancelled →
            conflictQ b.start_time b.end_time cur.start_time cur.end_time = false) →
        updateAppointment id
          { start_time := some cur.start_time, end_time := some cur.end_time } st =
          Except.ok (st.map (fun a => if a.id == id then
            applyPatch { start_time := some cur.start_time,
                         end_time := some cur.end_time } a
            else a))) := by
  have hconf : ∀ (st : List Appointment) (id : String) (p : AppointmentPatch)
      (cur : Appointment),
      touchesSchedule p = true → st.find? (fun a => a.id == id) = some cur →
      (∃ b ∈ st, b.id ≠ id ∧ b.worker_id = p.worker_id.getD cur.worker_id ∧
          b.status ≠ AppStatus.cancelled ∧
          conflictQ b.start_time b.end_time (p.start_time.getD cur.start_time)
            (p.end_time.getD cur.end_time) = true) →
      updateAppointment id p st = Except.error SchedError.schedulingConflict := by
    intro st id p cur ht hfind hex
    simp only [updateAppointment, ht, if_true, hfind]
    rw [if_neg]
    rw [Bool.not_eq_true, Bool.eq_false_iff]
    intro hE
    rw [List.isEmpty_iff, List.filter_eq_nil_iff] at hE
    obtain ⟨b, hb, hbid, hbw, hbs, hbc⟩ := hex
    exact hE b hb ((isConflicting_eq_true_iff _ _ _ _ _).mpr
      ⟨hbw, fun i hi => by cases hi; exact hbid, hbs, hbc⟩)
  have hok : ∀ (st : List Appointment) (id : String) (p : AppointmentPatch)
      (cur : Appointment),
      touchesSchedule p = true → st.find? (fun a => a.id == id) = some cur →
      (∀ b ∈ st, b.id ≠ id → b.worker_id = p.worker_id.getD cur.worker_id →
          b.status ≠ AppStatus.cancelled →
          conflictQ b.start_time b.end_time (p.start_time.getD cur.start_time)
            (p.end_time.getD cur.end_time) = false) →
      updateAppointment id p st =
        Except.ok (st.map (fun a => if a.id == id then applyPatch p a else a)) := by
    intro st id p cur ht hfind hall
    simp only [updateAppointment, ht, if_true, hfind]
    rw [if_pos]
    · exact writeBack_ok_iff.mpr
        ⟨⟨cur, List.mem_of_find?_eq_some hfind, by simpa using List.find?_some hfind⟩, rfl⟩
    · rw [List.isEmpty_iff, List.filter_eq_nil_iff]
      intro b hb hbc
      obtain ⟨hbw, hbid, hbs, hbq⟩ := (isConflicting_eq_true_iff _ _ _ _ _).mp hbc
      rw [hall b hb (hbid id rfl) hbw hbs] at hbq
      cases hbq
  refine ⟨?_, fun st id p cur ht hfind => ⟨hconf st id p cur ht hfind,
    hok st id p cur ht hfind⟩, ?_, ?_⟩
  · intro st id p ht hfind
    simp only [updateAppointment, ht, if_true, hfind]
  · intro st id p ht hmem
    rw [Bool.eq_false_iff] at ht
    simp only [updateAppointment, ht, if_neg]
    obtain ⟨a, ha, haid⟩ := hmem
    exact writeBack_ok_iff.mpr ⟨⟨a, ha, haid⟩, rfl⟩
  · intro st id cur hfind hall
    exact hok st id _ cur rfl hfind (by simpa using hall)

/-- Witness for C3: re-saving row "A"'s own unchanged times in the
two-row store [c3A, c3B] succeeds (self-exclusion), leaving the store
pointwise patched. -/
theorem C3_update_contract_witness :
    [c3A, c3B].find? (fun a => a.id == "A") = some c3A ∧
      updateAppointment "A"
        { start_time := some c3A.start_time, end_time := some c3A.end_time }
        [c3A, c3B] =
        Except.ok ([c3A, c3B].map (fun a => if a.id == "A" then
          applyPatch { start_time := some c3A.start_time,
                       end_time := some c3A.end_time } a
          else a)) := by
  have hfind : [c3A, c3B].find? (fun a => a.id == "A") = some c3A := rfl
  exact ⟨hfind, C3_update_contract.2.2.2 [c3A, c3B] "A" c3A hfind (by decide)⟩

/-! ## Claim C4 -/

/-- C4 (code bug): errors do not propagate.  A failing store query makes
`getAppointments` return `{ data: [], count: 0 }` as if it had succeeded
with no rows; a failing conflict query makes `addAppointment` return
`null`, the very same observable the caller gets for a detected
scheduling conflict — no typed transient-failure error ever reaches the
caller. -/
theorem C4_errors_swallowed :
    getAppointmentsCaught (Except.error "timeout") = ([], 0) ∧
      addAppointmentCaught (Except.error "timeout") (Except.ok c4Row) = none ∧
      addAppointmentCaught (Except.ok [c4Row]) (Except.ok c4Row) = none ∧
      addAppointmentCaught (Except.error "timeout") (Except.ok c4Row) =
        addAppointmentCaught (Except.ok [c4Row]) (Except.ok c4Row) :=
  ⟨rfl, rfl, rfl, rfl⟩

/-! ## Claim C5 -/

/-- C5 counterexample: `addAppointment` performs no `end > start`
validation — a payload with `end_time ≤ start_time` is inserted into an
empty store without any error. -/
theorem C5_counterexample :
    c5Bad.end_time ≤ c5Bad.start_time ∧
      addAppointment "A" c5Bad [] = Except.ok [insertedRow "A" c5Bad] :=
  ⟨by decide, rfl⟩

/-- C5 (amended): the `end > start` check lives only in the modal's
`validateForm`, which rejects any form whose end time is not after its
start time (blocking submission); the `addAppointment` API itself
performs no such validation and inserts the record whenever the conflict
query finds no match. -/
theorem C5_validation :
    (∀ (f : FormData) (s e : Nat),
      f.start_time = some s → f.end_time = some e → e ≤ s →
        validateForm f = false) ∧
    (∀ (newId : String) (a : AppointmentInput), a.end_time ≤ a.start_time →
        addAppointment newId a [] = Except.ok [insertedRow newId a]) := by
  constructor
  · intro f s e hs he hle
    rw [Bool.eq_false_iff]
    intro hemp
    rw [validateForm, List.isEmpty_iff] at hemp
    rw [validateFormErrors, hs, he] at hemp
    simp [List.append_eq_nil, hle] at hemp
  · intro newId a _
    rfl

/-- Witness for C5: the concrete inverted form [600, 540] is rejected by
`validateForm`, while the same inverted payload passes `addAppointment`. -/
theorem C5_validation_witness :
    c5Form.start_time = some 600 ∧ c5Form.end_time = some 540 ∧
      (540 : Nat) ≤ 600 ∧ validateForm c5Form = false ∧
      addAppointment "A" c5Bad [] = Except.ok [insertedRow "A" c5Bad] :=
  ⟨rfl, rfl, by decide, C5_validation.1 c5Form 600 540 rfl rfl (by decide),
    C5_validation.2 "A" c5Bad (by decide)⟩

/-! ## Claim C6 -/

/-- C6: `deleteAppointment` fails with the dependents error and deletes
nothing while any invoice references the appointment id; once no invoice
references it, the deletion goes through. -/
theorem C6_delete_guard :
    ∀ (db : DB) (id : String),
      ((∃ i ∈ db.invoices, i.appointment_id = id) →
        deleteAppointment id db = Except.error SchedError.hasDependents) ∧
      ((∀ i ∈ db.invoices, i.appointment_id ≠ id) →
        deleteAppointment id db = Except.ok
          { db with appointments := db.appointments.filter (fun a => a.id != id) }) := by
  intro db id
  constructor
  · rintro ⟨i, hi, hiid⟩
    rw [deleteAppointment]
    rw [if_neg]
    rw [Bool.not_eq_true, Bool.eq_false_iff]
    intro hE
    rw [List.isEmpty_iff, List.filter_eq_nil_iff] at hE
    exact hE i hi (by simp [hiid])
  · intro hall
    rw [deleteAppointment]
    rw [if_pos]
    rw [List.isEmpty_iff, List.filter_eq_nil_iff]
    intro i hi
    simp [hall i hi]

/-- Witness for C6: with invoice "I" referencing appointment "A" the
deletion fails; with the invoices table emptied it succeeds and removes
the row. -/
theorem C6_delete_guard_witness :
    deleteAppointment "A" { appointments := [c6App], invoices := [c6Inv] } =
        Except.error SchedError.hasDependents ∧
      deleteAppointment "A" { appointments := [c6App], invoices := [] } =
        Except.ok { appointments := [], invoices := [] } := by
  constructor
  · exact (C6_delete_guard { appointments := [c6App], invoices := [c6Inv] } "A").1
      ⟨c6Inv, by simp, rfl⟩
  · have := (C6_delete_guard { appointments := [c6App], invoices := [] } "A").2
      (by intro i hi; cases hi)
    simpa using this

/-! ## Claim C7 -/

/-- C7: `addInvoice` fails with the duplicate error and inserts nothing
when an existing invoice references the same appointment id; otherwise it
appends the new invoice, whose status defaults to draft when the payload
carries none. -/
theorem C7_duplicate_invoice :
    ∀ (st : List Invoice) (newId : String) (inv : InvoiceInput),
      ((∃ i ∈ st, i.appointment_id = inv.appointment_id) →
        addInvoice newId inv st = Except.error InvError.duplicateInvoice) ∧
      ((∀ i ∈ st, i.appointment_id ≠ inv.appointment_id) →
        addInvoice newId inv st = Except.ok (st ++ [insertedInvoice newId inv])) ∧
      (inv.status = none → (insertedInvoice newId inv).status = InvStatus.draft) := by
  intro st newId inv
  refine ⟨?_, ?_, ?_⟩
  · rintro ⟨i, hi, hiid⟩
    rw [addInvoice]
    rw [if_neg]
    rw [Bool.not_eq_true, Bool.eq_false_iff]
    intro hE
    rw [List.isEmpty_iff, List.filter_eq_nil_iff] at hE
    exact hE i hi (by simp [hiid])
  · intro hall
    rw [addInvoice]
    rw [if_pos]
    rw [List.isEmpty_iff, List.filter_eq_nil_iff]
    intro i hi
    simp [hall i hi]
  · intro hnone
    simp [insertedInvoice, hnone]

/-- Witness for C7: inserting into an empty invoices table succeeds with
status defaulted to draft; inserting a second invoice for the same
appointment fails with the duplicate error. -/
theorem C7_duplicate_invoice_witness :
    addInvoice "I" c7In [] = Except.ok [insertedInvoice "I" c7In] ∧
      (insertedInvoice "I" c7In).status = InvStatus.draft ∧
      addInvoice "J" c7In [insertedInvoice "I" c7In] =
        Except.error InvError.duplicateInvoice := by
  refine ⟨?_, (C7_duplicate_invoice [] "I" c7In).2.2 rfl, ?_⟩
  · have := (C7_duplicate_invoice [] "I" c7In).2.1 (by intro i hi; cases hi)
    simpa using this
  · exact (C7_duplicate_invoice [insertedInvoice "I" c7In] "J" c7In).1
      ⟨insertedInvoice "I" c7In, by simp, rfl⟩

/-! ## Claim C8 -/

/-- C8: updating an invoice to status paid with no paid date supplied (and
none stored) stamps today's date on the written record; for a patch whose
status is not paid and which carries no paid date of its own, the stored
paid date is left untouched. -/
theorem C8_paid_date :
    ∀ (st : List Invoice) (id : String) (p : InvoicePatch) (today : String)
      (cur : Invoice), cur ∈ st → cur.id = id →
      ∃ out, updateInvoice id p today st = Except.ok out ∧
        applyInvoicePatch out.2 cur ∈ out.1 ∧
        (p.status = some InvStatus.paid → p.paid_date = none →
          cur.paid_date = none →
          (applyInvoicePatch out.2 cur).paid_date = some today) ∧
        (p.status ≠ some InvStatus.paid → p.paid_date = none →
          (applyInvoicePatch out.2 cur).paid_date = cur.paid_date) := by
  intro st id p today cur hcur hid
  have hany : st.any (fun i => i.id == id) = true :=
    List.any_eq_true.mpr ⟨cur, hcur, beq_iff_eq.mpr hid⟩
  refine ⟨(st.map (fun i => if i.id == id then
      applyInvoicePatch (stampPaidDate p today) i else i), stampPaidDate p today),
    ?_, ?_, ?_, ?_⟩
  · rw [updateInvoice]
    rw [if_pos hany]
  · simpa [hid] using List.mem_map_of_mem
      (fun i => if i.id == id then applyInvoicePatch (stampPaidDate p today) i else i)
      hcur
  · intro hp hpd hcd
    simp [stampPaidDate, applyInvoicePatch, hp, hpd,
      show "".isEmpty = true from rfl]
  · intro hp hpd
    simp [stampPaidDate, applyInvoicePatch, hp, hpd]

/-- Witness for C8: the contract instantiated on the one-invoice store
for a patch setting the status to paid without a paid date. -/
theorem C8_paid_date_witness :
    c8Cur ∈ [c8Cur] ∧ c8Cur.id = "I" ∧
      ∃ out, updateInvoice "I" { status := some InvStatus.paid } "2026-10-12"
          [c8Cur] = Except.ok out ∧
        applyInvoicePatch out.2 c8Cur ∈ out.1 ∧
        (some InvStatus.paid = some InvStatus.paid →
          (none : Option String) = none → c8Cur.paid_date = none →
          (applyInvoicePatch out.2 c8Cur).paid_date = some "2026-10-12") ∧
        (some InvStatus.paid ≠ some InvStatus.paid →
          (none : Option String) = none →
          (applyInvoicePatch out.2 c8Cur).paid_date = c8Cur.paid_date) :=
  ⟨List.mem_singleton.mpr rfl, rfl,
    C8_paid_date [c8Cur] "I" { status := some InvStatus.paid } "2026-10-12"
      c8Cur (List.mem_singleton.mpr rfl) rfl⟩

/-! ## Claim C9 -/

/-- C9: the availability evaluation.  With the worker's availability map
present, an hour outside both [8, 12) and [13, 17) yields null; an hour
in [8, 12) resolves the morning slot and an hour in [13, 17) the
afternoon slot, each returning exactly the test that the stored value for
that day and slot equals "available" (false in every other case,
including an explicitly unavailable slot). -/
theorem C9_availability :
    ∀ (av : String → Option (String → Option String)) (d : Fin 7) (hour : Nat),
      (¬ (8 ≤ hour ∧ hour < 12) → ¬ (13 ≤ hour ∧ hour < 17) →
        getWorkerAvailability (some av) d hour = none) ∧
      (8 ≤ hour → hour < 12 →
        getWorkerAvailability (some av) d hour =
          some ((av (dayName d)).bind (fun m => m "morning") == some "available")) ∧
      (13 ≤ hour → hour < 17 →
        getWorkerAvailability (some av) d hour =
          some ((av (dayName d)).bind (fun m => m "afternoon") == some "available")) ∧
      (8 ≤ hour → hour < 12 →
        (getWorkerAvailability (some av) d hour = some true ↔
          (av (dayName d)).bind (fun m => m "morning") = some "available")) ∧
      (13 ≤ hour → hour < 17 →
        (getWorkerAvailability (some av) d hour = some true ↔
          (av (dayName d)).bind (fun m => m "afternoon") = some "available")) := by
  intro av d hour
  refine ⟨?_, ?_, ?_, ?_, ?_⟩
  · intro h1 h2
    simp [getWorkerAvailability, h1, h2]
  · intro h1 h2
    simp [getWorkerAvailability, h1, h2]
  · intro h1 h2
    have hn : ¬ (8 ≤ hour ∧ hour < 12) := by omega
    simp [getWorkerAvailability, hn, h1, h2]
  · intro h1 h2
    simp [getWorkerAvailability, h1, h2]
  · intro h1 h2
    have hn : ¬ (8 ≤ hour ∧ hour < 12) := by omega
    simp [getWorkerAvailability, hn, h1, h2]

/-- Witness for C9: a 19:00 start yields null; a Monday 09:00 start
against the explicitly unavailable slot yields false. -/
theorem C9_availability_witness :
    getWorkerAvailability (some c9Avail) 1 19 = none ∧
      getWorkerAvailability (some c9Avail) 1 9 = some false := by
  refine ⟨(C9_availability c9Avail 1 19).1 (by omega) (by omega), ?_⟩
  have h := (C9_availability c9Avail 1 9).2.1 (by omega) (by omega)
  rw [h]
  rfl

/-! ## Claim C10 -/

/-- C10: `updateInvoice` mutates the caller's patch object.  For a patch
with status paid and no paid date, the object the caller passed in ends
the call with `paid_date` assigned today's date and every other field
unchanged (the second component of the result is the caller's object
after the call), and the store write uses that mutated object. -/
theorem C10_patch_mutation :
    ∀ (p : InvoicePatch) (today : String) (st : List Invoice) (id : String),
      p.status = some InvStatus.paid → p.paid_date = none →
      (∃ i ∈ st, i.id = id) →
      updateInvoice id p today st =
        Except.ok (st.map (fun i => if i.id == id then
            applyInvoicePatch { p with paid_date := some today } i else i),
          { p with paid_date := some today }) := by
  intro p today st id hp hpd hmem
  have hp' : stampPaidDate p today = { p with paid_date := some today } := by
    simp [stampPaidDate, hp, hpd, show "".isEmpty = true from rfl]
  obtain ⟨i, hi, hid⟩ := hmem
  have hany : st.any (fun i => i.id == id) = true :=
    List.any_eq_true.mpr ⟨i, hi, beq_iff_eq.mpr hid⟩
  rw [updateInvoice, hp']
  rw [if_pos hany]

/-- Witness for C10: on the one-invoice store, the caller's patch object
comes back with `paid_date` set to today and its other fields intact. -/
theorem C10_patch_mutation_witness :
    c10P.status = some InvStatus.paid ∧ c10P.paid_date = none ∧
      updateInvoice "I" c10P "2026-10-12" [c8Cur] =
        Except.ok ([c8Cur].map (fun i => if i.id == "I" then
            applyInvoicePatch { c10P with paid_date := some "2026-10-12" } i else i),
          { c10P with paid_date := some "2026-10-12" }) :=
  ⟨rfl, rfl,
    C10_patch_mutation c10P "2026-10-12" [c8Cur] "I" rfl rfl
      ⟨c8Cur, List.mem_singleton.mpr rfl, rfl⟩⟩

end KatiaMartin
